import Mathlib

/-!
Verification of the authoritative game-state manager of
`simple-grpc-python-game` (`server/internal/game/state.go`, PNG-map revision).

Coordinates are embedded as rationals (the Go code uses `float32`; every
constant involved — half extents 64.0, speed 16.0, tile size 32, epsilon
0.001 — and all arithmetic on the magnitudes the store manipulates are exact
in both representations).  Go maps (`players`, `lastBroadcastPlayers`) are
embedded as association lists with unique keys; map assignment replaces the
entry in place, `delete` removes it.  `time.Now()` is passed in explicitly
as a natural-number timestamp.
-/

namespace Game

attribute [local semireducible] Rat.add Rat.sub Rat.mul Rat.inv

/-- `pb.PlayerInput_Direction` (game.proto): UNKNOWN/UP/DOWN/LEFT/RIGHT. -/
inductive Direction
  | unknown
  | up
  | down
  | left
  | right
deriving DecidableEq

/-- `pb.AnimationState` (game.proto). -/
inductive AnimationState
  | idle
  | runningUp
  | runningDown
  | runningLeft
  | runningRight
deriving DecidableEq

/-- `TileType` with `TileTypeEmpty = 0`, `TileTypeWall = 1`. -/
inductive TileType
  | empty
  | wall
deriving DecidableEq

/-- `pb.Player` (game.proto): id, username, x_pos, y_pos, current_animation_state.
`proto.Equal` on this message is field-wise equality, i.e. structural equality. -/
structure Player where
  id : String
  username : String
  xPos : ℚ
  yPos : ℚ
  currentAnimationState : AnimationState
deriving DecidableEq

/-- `trackedPlayer`: the protobuf data plus server-side tracking info. -/
structure TrackedPlayer where
  playerData : Player
  lastInputTime : ℕ
  lastDirection : Direction
deriving DecidableEq

/-- `State` (state.go).  The two Go maps are association lists. -/
structure State where
  players : List (String × TrackedPlayer)
  worldMap : List (List TileType)
  mapTileWidth : ℤ
  mapTileHeight : ℤ
  tileSize : ℤ
  worldMinX : ℚ
  worldMaxX : ℚ
  worldMinY : ℚ
  worldMaxY : ℚ
  lastBroadcastPlayers : List (String × Player)
deriving DecidableEq

/-- `pb.DeltaUpdate`: updated players plus removed player ids. -/
structure DeltaUpdate where
  updatedPlayers : List Player
  removedPlayerIds : List String
deriving DecidableEq

-- --- Constants (state.go) ---

def PlayerHalfWidth : ℚ := 64
def PlayerHalfHeight : ℚ := 64
def PlayerMoveSpeed : ℚ := 16
def DefaultTileSize : ℤ := 32

-- --- Association-list primitives modelling the Go map operations ---

/-- Go map read `m[k]` (presence-checked). -/
def lookupEntry {α : Type} : List (String × α) → String → Option α
  | [], _ => none
  | (k', v) :: rest, k => if k' = k then some v else lookupEntry rest k

/-- Go map assignment `m[k] = v`: replaces the entry if the key is present,
inserts it otherwise. -/
def setEntry {α : Type} : List (String × α) → String → α → List (String × α)
  | [], k, v => [(k, v)]
  | (k', v') :: rest, k, v =>
      if k' = k then (k, v) :: rest else (k', v') :: setEntry rest k v

/-- Go `delete(m, k)`: removes the entry with key `k` if present. -/
def eraseEntry {α : Type} : List (String × α) → String → List (String × α)
  | [], _ => []
  | (k', v') :: rest, k => if k' = k then rest else (k', v') :: eraseEntry rest k

-- --- Utility (state.go `clamp`) ---

/-- `clamp(value, min, max)`. -/
def clamp (value lo hi : ℚ) : ℚ :=
  if value < lo then lo else if value > hi then hi else value

-- --- Collision detection ---

/-- Go `int(q)` conversion of a (rational-embedded) float: truncation toward zero. -/
def truncQ (q : ℚ) : ℤ := q.num.tdiv q.den

/-- `n` consecutive integers starting at `t`. -/
def rangeAux : ℕ → ℤ → List ℤ
  | 0, _ => []
  | n + 1, t => t :: rangeAux n (t + 1)

/-- The integer list `[a, a+1, ..., b]` (empty when `b < a`), the index
sequence of a Go `for i := a; i <= b; i++` loop. -/
def rangeList (a b : ℤ) : List ℤ :=
  rangeAux (b + 1 - a).toNat a

/-- `s.worldMap[ty][tx]` for indices already checked to be in range. -/
def tileAt (s : State) (tx ty : ℤ) : TileType :=
  (s.worldMap.getD ty.toNat []).getD tx.toNat TileType.empty

/-- Loop body of `checkMapCollision`: out-of-range tile indices count as
collision, otherwise collision iff the tile is a Wall. -/
def tileBlocked (s : State) (tx ty : ℤ) : Bool :=
  if tx < 0 ∨ tx ≥ s.mapTileWidth ∨ ty < 0 ∨ ty ≥ s.mapTileHeight then
    true
  else if tileAt s tx ty = TileType.wall then
    true
  else
    false

/-- `checkMapCollision(centerX, centerY)` (state.go): scans every tile index
covered by the bounding box, with epsilon 0.001 subtracted from the max edges. -/
def checkMapCollision (s : State) (centerX centerY : ℚ) : Bool :=
  let minX := centerX - PlayerHalfWidth
  let maxX := centerX + PlayerHalfWidth
  let minY := centerY - PlayerHalfHeight
  let maxY := centerY + PlayerHalfHeight
  let epsilon : ℚ := 1 / 1000
  let startTileX := truncQ (minX / (s.tileSize : ℚ))
  let endTileX := truncQ ((maxX - epsilon) / (s.tileSize : ℚ))
  let startTileY := truncQ (minY / (s.tileSize : ℚ))
  let endTileY := truncQ ((maxY - epsilon) / (s.tileSize : ℚ))
  (rangeList startTileY endTileY).any fun ty =>
    (rangeList startTileX endTileX).any fun tx => tileBlocked s tx ty

/-- Per-other-player AABB overlap test of `checkPlayerCollision`
(strict inequalities on every edge). -/
def boxOverlapB (px py ox oy : ℚ) : Bool :=
  let moveLeft := px - PlayerHalfWidth
  let moveRight := px + PlayerHalfWidth
  let moveTop := py - PlayerHalfHeight
  let moveBottom := py + PlayerHalfHeight
  let otherLeft := ox - PlayerHalfWidth
  let otherRight := ox + PlayerHalfWidth
  let otherTop := oy - PlayerHalfHeight
  let otherBottom := oy + PlayerHalfHeight
  (decide (moveLeft < otherRight) && decide (moveRight > otherLeft)) &&
    (decide (moveTop < otherBottom) && decide (moveBottom > otherTop))

/-- Loop of `checkPlayerCollision` over a given player list, skipping the
candidate's own entry. -/
def playersCollide (players : List (String × TrackedPlayer)) (playerID : String)
    (potentialX potentialY : ℚ) : Bool :=
  players.any fun e =>
    if e.1 = playerID then false
    else boxOverlapB potentialX potentialY e.2.playerData.xPos e.2.playerData.yPos

/-- `checkPlayerCollision(playerID, potentialX, potentialY)` (state.go). -/
def checkPlayerCollision (s : State) (playerID : String)
    (potentialX potentialY : ℚ) : Bool :=
  playersCollide s.players playerID potentialX potentialY

-- --- Player management ---

/-- `AddPlayer(playerID, username, startX, startY)`: clamps the start position
into the world bounds minus half extents and inserts a fresh record. -/
def addPlayer (s : State) (playerID username : String) (startX startY : ℚ)
    (now : ℕ) : Player × State :=
  let x := clamp startX (s.worldMinX + PlayerHalfWidth) (s.worldMaxX - PlayerHalfWidth)
  let y := clamp startY (s.worldMinY + PlayerHalfHeight) (s.worldMaxY - PlayerHalfHeight)
  let playerData : Player :=
    { id := playerID, username := username, xPos := x, yPos := y
      currentAnimationState := AnimationState.idle }
  let tracked : TrackedPlayer :=
    { playerData := playerData, lastInputTime := now, lastDirection := Direction.unknown }
  (playerData, { s with players := setEntry s.players playerID tracked })

/-- `RemovePlayer(playerID)`: deletes the record if present. -/
def removePlayer (s : State) (playerID : String) : State :=
  { s with players := eraseEntry s.players playerID }

/-- `UpdatePlayerDirection(playerID, dir)`: updates `LastDirection` only if it
differs; returns whether it changed. -/
def updatePlayerDirection (s : State) (playerID : String) (dir : Direction) :
    Bool × State :=
  match lookupEntry s.players playerID with
  | none => (false, s)
  | some tp =>
      if tp.lastDirection ≠ dir then
        (true, { s with players := setEntry s.players playerID { tp with lastDirection := dir } })
      else
        (false, s)

-- --- Input & movement (`ApplyInput`) ---

/-- The `switch direction` of `ApplyInput`: one speed step on the chosen axis. -/
def moveStep (x y : ℚ) : Direction → ℚ × ℚ
  | Direction.unknown => (x, y)
  | Direction.up => (x, y - PlayerMoveSpeed)
  | Direction.down => (x, y + PlayerMoveSpeed)
  | Direction.left => (x - PlayerMoveSpeed, y)
  | Direction.right => (x + PlayerMoveSpeed, y)

/-- `intendedAnimation` as assigned in the `switch direction` of `ApplyInput`. -/
def animForDirection : Direction → AnimationState
  | Direction.unknown => AnimationState.idle
  | Direction.up => AnimationState.runningUp
  | Direction.down => AnimationState.runningDown
  | Direction.left => AnimationState.runningLeft
  | Direction.right => AnimationState.runningRight

/-- The clamped candidate position computed by `ApplyInput` for a non-UNKNOWN
direction: one speed step, then clamped into world bounds minus half extents. -/
def candidatePos (s : State) (x y : ℚ) (direction : Direction) : ℚ × ℚ :=
  let stepped := moveStep x y direction
  (clamp stepped.1 (s.worldMinX + PlayerHalfWidth) (s.worldMaxX - PlayerHalfWidth),
   clamp stepped.2 (s.worldMinY + PlayerHalfHeight) (s.worldMaxY - PlayerHalfHeight))

/-- The collision gate of `ApplyInput`: map collision checked first, player
collision only otherwise (short-circuit `else if`). -/
def blockedAt (s : State) (playerID : String) (p : ℚ × ℚ) : Bool :=
  checkMapCollision s p.1 p.2 || checkPlayerCollision s playerID p.1 p.2

/-- The movement part of `ApplyInput` for a found player: new x, new y, and
the `moved` flag.  A non-UNKNOWN direction takes the clamped candidate only
when no collision blocks it; UNKNOWN never moves. -/
def applyInputPos (s : State) (playerID : String) (tp : TrackedPlayer)
    (direction : Direction) : ℚ × ℚ × Bool :=
  if direction = Direction.unknown then
    (tp.playerData.xPos, tp.playerData.yPos, false)
  else
    let potential := candidatePos s tp.playerData.xPos tp.playerData.yPos direction
    if blockedAt s playerID potential then
      (tp.playerData.xPos, tp.playerData.yPos, false)
    else
      (potential.1, potential.2, true)

/-- The tracked record `ApplyInput` writes back for a found player:
`LastInputTime` and `LastDirection` set unconditionally, position from
`applyInputPos`, animation from the `moved || direction != UNKNOWN` test. -/
def applyInputTracked (s : State) (playerID : String) (tp : TrackedPlayer)
    (direction : Direction) (now : ℕ) : TrackedPlayer :=
  let next := applyInputPos s playerID tp direction
  let moved := next.2.2
  let newAnim :=
    if moved || decide (direction ≠ Direction.unknown) then animForDirection direction
    else AnimationState.idle
  { playerData :=
      { tp.playerData with
          xPos := next.1, yPos := next.2.1, currentAnimationState := newAnim }
    lastInputTime := now, lastDirection := direction }

/-- `ApplyInput(playerID, direction)` (state.go): unknown id returns
`(nil, false)` and leaves the state untouched; otherwise the updated record
(per `applyInputTracked`) replaces the player's entry and a copy of its data
is returned with `found=true`. -/
def applyInput (s : State) (playerID : String) (direction : Direction)
    (now : ℕ) : Option Player × State :=
  match lookupEntry s.players playerID with
  | none => (none, s)
  | some trackedP =>
      let newTracked := applyInputTracked s playerID trackedP direction now
      (some newTracked.playerData,
        { s with players := setEntry s.players playerID newTracked })

-- --- Delta update generation ---

/-- The per-tick snapshot of `GenerateDeltaUpdate`: a clone of every current
player's protobuf data, keyed by id. -/
def snapshotOf (players : List (String × TrackedPlayer)) : List (String × Player) :=
  players.map fun e => (e.1, e.2.playerData)

/-- The `UpdatedPlayers` list built by `GenerateDeltaUpdate`'s first loop:
players missing from or differing (by `proto.Equal`, i.e. field-wise
equality) from `lastBroadcastPlayers`. -/
def deltaUpdated (s : State) : List Player :=
  s.players.filterMap fun e =>
    match lookupEntry s.lastBroadcastPlayers e.1 with
    | none => some e.2.playerData
    | some lastP => if lastP = e.2.playerData then none else some e.2.playerData

/-- The `RemovedPlayerIds` list built by `GenerateDeltaUpdate`'s second loop:
ids of `lastBroadcastPlayers` absent from `players`. -/
def deltaRemoved (s : State) : List String :=
  s.lastBroadcastPlayers.filterMap fun e =>
    if (lookupEntry s.players e.1).isSome then none else some e.1

/-- The `changed` flag of `GenerateDeltaUpdate`: set exactly when one of the
two loops appended something. -/
def deltaChanged (s : State) : Bool :=
  !(deltaUpdated s).isEmpty || !(deltaRemoved s).isEmpty

/-- `GenerateDeltaUpdate()` (state.go): returns the delta and the `changed`
flag; only on `changed` is `lastBroadcastPlayers` replaced by the fresh
snapshot. -/
def generateDeltaUpdate (s : State) : DeltaUpdate × Bool × State :=
  (⟨deltaUpdated s, deltaRemoved s⟩, deltaChanged s,
    if deltaChanged s then { s with lastBroadcastPlayers := snapshotOf s.players }
    else s)

/-- `GetInitialStateDelta()` (state.go): every live player's data as
`UpdatedPlayers`, empty `RemovedPlayerIds`.  The method only takes the read
lock, so the state it leaves behind is returned unchanged. -/
def getInitialStateDelta (s : State) : DeltaUpdate × State :=
  (⟨s.players.map fun e => e.2.playerData, []⟩, s)

-- --- Operation sequences over the store ---

/-- One public mutating call on the store (timestamps made explicit). -/
inductive Op
  | add (id username : String) (x y : ℚ) (now : ℕ)
  | input (id : String) (dir : Direction) (now : ℕ)
  | remove (id : String)
  | genDelta

/-- Does this operation add a player under id `p`? -/
def Op.addsId (p : String) : Op → Prop
  | Op.add id _ _ _ _ => id = p
  | _ => False

/-- Execute one operation, discarding its return value. -/
def applyOp (s : State) : Op → State
  | Op.add id u x y now => (addPlayer s id u x y now).2
  | Op.input id dir now => (applyInput s id dir now).2
  | Op.remove id => removePlayer s id
  | Op.genDelta => (generateDeltaUpdate s).2.2

/-- Execute a sequence of operations left to right. -/
def runOps (s : State) (ops : List Op) : State := ops.foldl applyOp s

-- --- Concrete states for witnesses ---

/-- An all-Empty tile map of the given dimensions. -/
def emptyMap (w h : ℕ) : List (List TileType) :=
  List.replicate h (List.replicate w TileType.empty)

/-- The state `NewState` builds from an all-Empty `w × h` map with the default
tile size 32: world pixel bounds `[0, 32w] × [0, 32h]`, empty stores. -/
def mkState (w h : ℕ) : State :=
  { players := []
    worldMap := emptyMap w h
    mapTileWidth := (w : ℤ)
    mapTileHeight := (h : ℤ)
    tileSize := DefaultTileSize
    worldMinX := 0
    worldMaxX := 32 * (w : ℚ)
    worldMinY := 0
    worldMaxY := 32 * (h : ℚ)
    lastBroadcastPlayers := [] }

-- --- Predicates used by the verification ---

/-- The position of one player record lies inside the world bounds shrunk by
the half extents, on both axes. -/
def inBoundsP (s : State) (p : Player) : Prop :=
  (s.worldMinX + PlayerHalfWidth ≤ p.xPos ∧ p.xPos ≤ s.worldMaxX - PlayerHalfWidth) ∧
  (s.worldMinY + PlayerHalfHeight ≤ p.yPos ∧ p.yPos ≤ s.worldMaxY - PlayerHalfHeight)

/-- Every record in the store satisfies `inBoundsP`. -/
def storeInBounds (s : State) : Prop :=
  ∀ e ∈ s.players, inBoundsP s e.2.playerData

/-- Every record's protobuf `Id` field agrees with its map key (true of every
state the public API can build). -/
def storeWF (s : State) : Prop :=
  ∀ e ∈ s.players, e.2.playerData.id = e.1

/-- The keys of the player store are pairwise distinct (automatic for a Go
map; an invariant of the association-list embedding). -/
def storeKeysNodup (s : State) : Prop :=
  (s.players.map Prod.fst).Nodup

/-- Modelled from the claim's words (C7 describes the tile range of the wall
test as running from `floor(minEdge/tileSize)` to
`floor((maxEdge-epsilon)/tileSize)`): a wall hit under that floor-based range.
To be compared against `checkMapCollision`, which converts with Go's `int()`
(truncation toward zero). -/
def specFloorWallHit (s : State) (cx cy : ℚ) : Prop :=
  ∃ tx ty : ℤ,
    Int.floor ((cx - PlayerHalfWidth) / (s.tileSize : ℚ)) ≤ tx ∧
    tx ≤ Int.floor ((cx + PlayerHalfWidth - 1 / 1000) / (s.tileSize : ℚ)) ∧
    Int.floor ((cy - PlayerHalfHeight) / (s.tileSize : ℚ)) ≤ ty ∧
    ty ≤ Int.floor ((cy + PlayerHalfHeight - 1 / 1000) / (s.tileSize : ℚ)) ∧
    (tx < 0 ∨ s.mapTileWidth ≤ tx ∨ ty < 0 ∨ s.mapTileHeight ≤ ty ∨
      tileAt s tx ty = TileType.wall)

instance (s : State) (p : Player) : Decidable (inBoundsP s p) := by
  unfold inBoundsP
  infer_instance

instance (s : State) : Decidable (storeInBounds s) := by
  unfold storeInBounds
  infer_instance

instance (s : State) : Decidable (storeWF s) := by
  unfold storeWF
  infer_instance

instance (s : State) : Decidable (storeKeysNodup s) := by
  unfold storeKeysNodup
  infer_instance

instance (p : String) (op : Op) : Decidable (op.addsId p) := by
  cases op <;> simp only [Op.addsId] <;> infer_instance

-- --- Concrete states used by witnesses and counterexamples ---

/-- An 8-row map whose two rightmost columns are Wall tiles. -/
def wallMap : List (List TileType) :=
  List.replicate 8 (List.replicate 6 TileType.empty ++ List.replicate 2 TileType.wall)

/-- An 8×8 world with a wall along its east side. -/
def wallState : State := { mkState 8 8 with worldMap := wallMap }

/-- `wallState` after adding player p1 at (128, 100): one step east of the wall. -/
def wallP : State := (addPlayer wallState "p1" "u" 128 100 0).2

/-- The tracked record of p1 inside `wallP`. -/
def wallTp : TrackedPlayer :=
  ⟨⟨"p1", "u", 128, 100, AnimationState.idle⟩, 0, Direction.unknown⟩

/-- An 8×8 empty world with player p1 at (100, 100) and an empty broadcast
snapshot. -/
def oneP : State := (addPlayer (mkState 8 8) "p1" "u" 100 100 0).2

/-- `oneP` after one delta broadcast (snapshot holds p1). -/
def onePSync : State := (generateDeltaUpdate oneP).2.2

/-- A 20×8 empty world with players p2 at (300, 100) and p1 at (156, 100). -/
def twoP : State :=
  (addPlayer ((addPlayer (mkState 20 8) "p2" "v" 300 100 0).2) "p1" "u" 156 100 0).2

-- --- Helper lemmas: association lists ---

theorem lookupEntry_setEntry_self {α : Type} (l : List (String × α)) (k : String) (v : α) :
    lookupEntry (setEntry l k v) k = some v := by
  induction l with
  | nil => simp [setEntry, lookupEntry]
  | cons e rest ih =>
      obtain ⟨k', v'⟩ := e
      by_cases h : k' = k
      · simp [setEntry, lookupEntry, h]
      · simp [setEntry, lookupEntry, h, ih]

theorem lookupEntry_setEntry_ne {α : Type} (l : List (String × α)) (k k' : String) (v : α)
    (h : k ≠ k') : lookupEntry (setEntry l k v) k' = lookupEntry l k' := by
  induction l with
  | nil => simp [setEntry, lookupEntry, h]
  | cons e rest ih =>
      obtain ⟨k₀, v₀⟩ := e
      by_cases h₀ : k₀ = k
      · simp [setEntry, lookupEntry, h₀, h]
      · simp only [setEntry, if_neg h₀, lookupEntry]
        by_cases h₁ : k₀ = k'
        · simp [h₁]
        · simp [h₁, ih]

theorem mem_setEntry {α : Type} {l : List (String × α)} {k : String} {v : α}
    {e : String × α} (h : e ∈ setEntry l k v) : e = (k, v) ∨ e ∈ l := by
  induction l with
  | nil => simpa [setEntry] using h
  | cons e₀ rest ih =>
      obtain ⟨k₀, v₀⟩ := e₀
      by_cases h₀ : k₀ = k
      · simp only [setEntry, if_pos h₀, List.mem_cons] at h
        rcases h with h | h
        · exact Or.inl h
        · exact Or.inr (List.mem_cons_of_mem _ h)
      · simp only [setEntry, if_neg h₀, List.mem_cons] at h
        rcases h with h | h
        · exact Or.inr (by simp [h])
        · rcases ih h with h' | h'
          · exact Or.inl h'
          · exact Or.inr (List.mem_cons_of_mem _ h')

theorem self_mem_setEntry {α : Type} (l : List (String × α)) (k : String) (v : α) :
    (k, v) ∈ setEntry l k v := by
  induction l with
  | nil => simp [setEntry]
  | cons e₀ rest ih =>
      obtain ⟨k₀, v₀⟩ := e₀
      by_cases h₀ : k₀ = k
      · simp [setEntry, h₀]
      · simp only [setEntry, if_neg h₀, List.mem_cons]
        exact Or.inr ih

theorem lookupEntry_eq_none_iff {α : Type} {l : List (String × α)} {k : String} :
    lookupEntry l k = none ↔ ∀ e ∈ l, e.1 ≠ k := by
  induction l with
  | nil => simp [lookupEntry]
  | cons e₀ rest ih =>
      obtain ⟨k₀, v₀⟩ := e₀
      by_cases h₀ : k₀ = k
      · simp [lookupEntry, h₀]
      · simp [lookupEntry, h₀, ih]

theorem lookupEntry_some_mem {α : Type} {l : List (String × α)} {k : String} {v : α}
    (h : lookupEntry l k = some v) : (k, v) ∈ l := by
  induction l with
  | nil => simp [lookupEntry] at h
  | cons e₀ rest ih =>
      obtain ⟨k₀, v₀⟩ := e₀
      by_cases h₀ : k₀ = k
      · simp [lookupEntry, h₀] at h
        simp [h₀, h]
      · simp only [lookupEntry, if_neg h₀] at h
        exact List.mem_cons_of_mem _ (ih h)

theorem lookupEntry_of_mem_nodup {α : Type} {l : List (String × α)} {k : String} {v : α}
    (hnd : (l.map Prod.fst).Nodup) (h : (k, v) ∈ l) : lookupEntry l k = some v := by
  induction l with
  | nil => simp at h
  | cons e₀ rest ih =>
      obtain ⟨k₀, v₀⟩ := e₀
      simp only [List.map_cons, List.nodup_cons] at hnd
      rcases List.mem_cons.1 h with h₁ | h₁
      · obtain ⟨hk, hv⟩ := Prod.mk.injEq .. ▸ h₁
        simp [lookupEntry, hk.symm, hv]
      · have hne : k₀ ≠ k := by
          intro hkk
          exact hnd.1 (hkk ▸ List.mem_map.2 ⟨(k, v), h₁, rfl⟩)
        simp only [lookupEntry, if_neg hne]
        exact ih hnd.2 h₁

theorem lookupEntry_self_of_mem_nodup {α : Type} {l : List (String × α)}
    {e : String × α} (hnd : (l.map Prod.fst).Nodup) (h : e ∈ l) :
    lookupEntry l e.1 = some e.2 := by
  obtain ⟨k, v⟩ := e
  exact lookupEntry_of_mem_nodup hnd h

theorem lookupEntry_isSome_iff {α : Type} {l : List (String × α)} {k : String} :
    (lookupEntry l k).isSome = true ↔ k ∈ l.map Prod.fst := by
  induction l with
  | nil => simp [lookupEntry]
  | cons e₀ rest ih =>
      obtain ⟨k₀, v₀⟩ := e₀
      by_cases h₀ : k₀ = k
      · simp [lookupEntry, h₀]
      · simp [lookupEntry, h₀, ih, Ne.symm h₀]

theorem mem_eraseEntry {α : Type} {l : List (String × α)} {k : String}
    {e : String × α} (h : e ∈ eraseEntry l k) : e ∈ l := by
  induction l with
  | nil => simp [eraseEntry] at h
  | cons e₀ rest ih =>
      obtain ⟨k₀, v₀⟩ := e₀
      by_cases h₀ : k₀ = k
      · simp only [eraseEntry, if_pos h₀] at h
        exact List.mem_cons_of_mem _ h
      · simp only [eraseEntry, if_neg h₀, List.mem_cons] at h
        rcases h with h | h
        · simp [h]
        · exact List.mem_cons_of_mem _ (ih h)

theorem eraseEntry_of_lookup_none {α : Type} {l : List (String × α)} {k : String}
    (h : lookupEntry l k = none) : eraseEntry l k = l := by
  induction l with
  | nil => simp [eraseEntry]
  | cons e₀ rest ih =>
      obtain ⟨k₀, v₀⟩ := e₀
      by_cases h₀ : k₀ = k
      · simp [lookupEntry, h₀] at h
      · simp only [lookupEntry, if_neg h₀] at h
        simp [eraseEntry, h₀, ih h]

theorem lookupEntry_eraseEntry_self {α : Type} {l : List (String × α)} {k : String}
    (hnd : (l.map Prod.fst).Nodup) : lookupEntry (eraseEntry l k) k = none := by
  induction l with
  | nil => simp [eraseEntry, lookupEntry]
  | cons e₀ rest ih =>
      obtain ⟨k₀, v₀⟩ := e₀
      simp only [List.map_cons, List.nodup_cons] at hnd
      by_cases h₀ : k₀ = k
      · simp only [eraseEntry, if_pos h₀]
        rw [lookupEntry_eq_none_iff]
        intro e he hek
        exact hnd.1 (h₀ ▸ hek ▸ List.mem_map.2 ⟨e, he, rfl⟩)
      · simp [eraseEntry, lookupEntry, h₀, ih hnd.2]

theorem lookupEntry_snapshotOf (l : List (String × TrackedPlayer)) (k : String) :
    lookupEntry (snapshotOf l) k = (lookupEntry l k).map TrackedPlayer.playerData := by
  induction l with
  | nil => simp [snapshotOf, lookupEntry]
  | cons e₀ rest ih =>
      by_cases h₀ : e₀.1 = k
      · simp [snapshotOf, lookupEntry, h₀]
      · simpa [snapshotOf, lookupEntry, h₀] using ih

-- --- Helper lemmas: clamp and ranges ---

theorem clamp_mem {v lo hi : ℚ} (h : lo ≤ hi) :
    lo ≤ clamp v lo hi ∧ clamp v lo hi ≤ hi := by
  unfold clamp
  split_ifs with h₁ h₂ <;> constructor <;> linarith

theorem mem_rangeAux {n : ℕ} {t x : ℤ} : x ∈ rangeAux n t ↔ t ≤ x ∧ x < t + n := by
  induction n generalizing t with
  | zero =>
      simp [rangeAux]
  | succ n ih =>
      simp [rangeAux, List.mem_cons, ih]
      omega

theorem mem_rangeList {a b x : ℤ} : x ∈ rangeList a b ↔ a ≤ x ∧ x ≤ b := by
  rw [rangeList, mem_rangeAux]
  omega

-- --- Helper lemmas: collision tests ---

theorem boxOverlapB_iff {px py ox oy : ℚ} :
    boxOverlapB px py ox oy = true ↔
      px - PlayerHalfWidth < ox + PlayerHalfWidth ∧
      ox - PlayerHalfWidth < px + PlayerHalfWidth ∧
      py - PlayerHalfHeight < oy + PlayerHalfHeight ∧
      oy - PlayerHalfHeight < py + PlayerHalfHeight := by
  simp only [boxOverlapB, Bool.and_eq_true, decide_eq_true_eq, gt_iff_lt]
  tauto

theorem playersCollide_iff {l : List (String × TrackedPlayer)} {pid : String} {x y : ℚ} :
    playersCollide l pid x y = true ↔
      ∃ e ∈ l, e.1 ≠ pid ∧
        x - PlayerHalfWidth < e.2.playerData.xPos + PlayerHalfWidth ∧
        e.2.playerData.xPos - PlayerHalfWidth < x + PlayerHalfWidth ∧
        y - PlayerHalfHeight < e.2.playerData.yPos + PlayerHalfHeight ∧
        e.2.playerData.yPos - PlayerHalfHeight < y + PlayerHalfHeight := by
  simp only [playersCollide, List.any_eq_true]
  constructor
  · rintro ⟨e, he, hp⟩
    by_cases h : e.1 = pid
    · simp [h] at hp
    · rw [if_neg h, boxOverlapB_iff] at hp
      exact ⟨e, he, h, hp⟩
  · rintro ⟨e, he, hne, hov⟩
    refine ⟨e, he, ?_⟩
    rw [if_neg hne, boxOverlapB_iff]
    exact hov

/-- Replacing the candidate's own entry does not change the result of the
other-player collision scan (the candidate is skipped). -/
theorem playersCollide_setEntry (l : List (String × TrackedPlayer)) (pid : String)
    (v : TrackedPlayer) (x y : ℚ) :
    playersCollide (setEntry l pid v) pid x y = playersCollide l pid x y := by
  induction l with
  | nil => simp [setEntry, playersCollide]
  | cons e rest ih =>
      obtain ⟨k₀, v₀⟩ := e
      by_cases h₀ : k₀ = pid
      · simp [setEntry, playersCollide, h₀] at ih ⊢
      · simp only [setEntry, if_neg h₀, playersCollide, List.any_cons] at ih ⊢
        rw [ih]

theorem tileBlocked_iff {s : State} {tx ty : ℤ} :
    tileBlocked s tx ty = true ↔
      tx < 0 ∨ s.mapTileWidth ≤ tx ∨ ty < 0 ∨ s.mapTileHeight ≤ ty ∨
        tileAt s tx ty = TileType.wall := by
  unfold tileBlocked
  split_ifs with h₁ h₂ <;> simp_all [ge_iff_le]
  tauto

-- --- Helper lemmas: state frame properties ---

/-- `ApplyInput` touches only the `players` field of the state. -/
theorem applyInput_frame (s : State) (pid : String) (d : Direction) (now : ℕ) :
    (applyInput s pid d now).2.worldMap = s.worldMap ∧
    (applyInput s pid d now).2.mapTileWidth = s.mapTileWidth ∧
    (applyInput s pid d now).2.mapTileHeight = s.mapTileHeight ∧
    (applyInput s pid d now).2.tileSize = s.tileSize ∧
    (applyInput s pid d now).2.worldMinX = s.worldMinX ∧
    (applyInput s pid d now).2.worldMaxX = s.worldMaxX ∧
    (applyInput s pid d now).2.worldMinY = s.worldMinY ∧
    (applyInput s pid d now).2.worldMaxY = s.worldMaxY ∧
    (applyInput s pid d now).2.lastBroadcastPlayers = s.lastBroadcastPlayers := by
  cases h : lookupEntry s.players pid <;> simp [applyInput, h]

/-- `GenerateDeltaUpdate` never changes the `players` field. -/
theorem generateDeltaUpdate_players (s : State) :
    (generateDeltaUpdate s).2.2.players = s.players := by
  simp only [generateDeltaUpdate]
  split <;> rfl

/-- `GenerateDeltaUpdate` preserves the world geometry fields. -/
theorem generateDeltaUpdate_frame (s : State) :
    (generateDeltaUpdate s).2.2.worldMap = s.worldMap ∧
    (generateDeltaUpdate s).2.2.mapTileWidth = s.mapTileWidth ∧
    (generateDeltaUpdate s).2.2.mapTileHeight = s.mapTileHeight ∧
    (generateDeltaUpdate s).2.2.tileSize = s.tileSize ∧
    (generateDeltaUpdate s).2.2.worldMinX = s.worldMinX ∧
    (generateDeltaUpdate s).2.2.worldMaxX = s.worldMaxX ∧
    (generateDeltaUpdate s).2.2.worldMinY = s.worldMinY ∧
    (generateDeltaUpdate s).2.2.worldMaxY = s.worldMaxY := by
  simp only [generateDeltaUpdate]
  split <;> simp

/-- Every record in the `updated` list of a delta is the current data of some
store entry. -/
theorem mem_updated_exists {s : State} {r : Player}
    (h : r ∈ (generateDeltaUpdate s).1.updatedPlayers) :
    ∃ e ∈ s.players, r = e.2.playerData := by
  simp only [generateDeltaUpdate] at h
  obtain ⟨e, he, hf⟩ := List.mem_filterMap.1 h
  refine ⟨e, he, ?_⟩
  rcases hlk : lookupEntry s.lastBroadcastPlayers e.1 with _ | lastP
  · rw [hlk] at hf
    simp at hf
    exact hf.symm
  · rw [hlk] at hf
    by_cases heq : lastP = e.2.playerData
    · simp [heq] at hf
    · simp [heq] at hf
      exact hf.symm

/-- The movement triple of `ApplyInput` is either "stay" (UNKNOWN direction,
or blocked move) or "take the clamped candidate". -/
theorem applyInputPos_cases (s : State) (pid : String) (tp : TrackedPlayer)
    (d : Direction) :
    applyInputPos s pid tp d = (tp.playerData.xPos, tp.playerData.yPos, false) ∨
    applyInputPos s pid tp d =
      ((candidatePos s tp.playerData.xPos tp.playerData.yPos d).1,
       (candidatePos s tp.playerData.xPos tp.playerData.yPos d).2, true) := by
  simp only [applyInputPos]
  by_cases hd : d = Direction.unknown
  · rw [if_pos hd]
    exact Or.inl rfl
  · rw [if_neg hd]
    by_cases hb : blockedAt s pid
      (candidatePos s tp.playerData.xPos tp.playerData.yPos d) = true
    · rw [if_pos hb]
      exact Or.inl rfl
    · rw [if_neg hb]
      exact Or.inr rfl

/-- The position written by `ApplyInput` is either the old one (UNKNOWN
direction, or blocked move) or the clamped candidate. -/
theorem applyInputTracked_pos (s : State) (pid : String) (tp : TrackedPlayer)
    (d : Direction) (now : ℕ) :
    ((applyInputTracked s pid tp d now).playerData.xPos = tp.playerData.xPos ∧
     (applyInputTracked s pid tp d now).playerData.yPos = tp.playerData.yPos) ∨
    ((applyInputTracked s pid tp d now).playerData.xPos =
        clamp (moveStep tp.playerData.xPos tp.playerData.yPos d).1
          (s.worldMinX + PlayerHalfWidth) (s.worldMaxX - PlayerHalfWidth) ∧
     (applyInputTracked s pid tp d now).playerData.yPos =
        clamp (moveStep tp.playerData.xPos tp.playerData.yPos d).2
          (s.worldMinY + PlayerHalfHeight) (s.worldMaxY - PlayerHalfHeight)) := by
  rcases applyInputPos_cases s pid tp d with h | h
  · left
    constructor
    · show (applyInputPos s pid tp d).1 = tp.playerData.xPos
      rw [h]
    · show (applyInputPos s pid tp d).2.1 = tp.playerData.yPos
      rw [h]
  · right
    constructor
    · show (applyInputPos s pid tp d).1 =
        clamp (moveStep tp.playerData.xPos tp.playerData.yPos d).1
          (s.worldMinX + PlayerHalfWidth) (s.worldMaxX - PlayerHalfWidth)
      rw [h]
      rfl
    · show (applyInputPos s pid tp d).2.1 =
        clamp (moveStep tp.playerData.xPos tp.playerData.yPos d).2
          (s.worldMinY + PlayerHalfHeight) (s.worldMaxY - PlayerHalfHeight)
      rw [h]
      rfl

theorem inBoundsP_congr {s s' : State} {p : Player}
    (h1 : s'.worldMinX = s.worldMinX) (h2 : s'.worldMaxX = s.worldMaxX)
    (h3 : s'.worldMinY = s.worldMinY) (h4 : s'.worldMaxY = s.worldMaxY) :
    inBoundsP s' p ↔ inBoundsP s p := by
  unfold inBoundsP
  rw [h1, h2, h3, h4]

theorem applyOp_world (s : State) (op : Op) :
    (applyOp s op).worldMinX = s.worldMinX ∧ (applyOp s op).worldMaxX = s.worldMaxX ∧
    (applyOp s op).worldMinY = s.worldMinY ∧ (applyOp s op).worldMaxY = s.worldMaxY := by
  cases op with
  | add id u x y now => simp [applyOp, addPlayer]
  | input id dir now =>
      have h := applyInput_frame s id dir now
      exact ⟨h.2.2.2.2.1, h.2.2.2.2.2.1, h.2.2.2.2.2.2.1, h.2.2.2.2.2.2.2.1⟩
  | remove id => simp [applyOp, removePlayer]
  | genDelta =>
      have h := generateDeltaUpdate_frame s
      exact ⟨h.2.2.2.2.1, h.2.2.2.2.2.1, h.2.2.2.2.2.2.1, h.2.2.2.2.2.2.2⟩

theorem storeInBounds_applyOp (s : State) (op : Op)
    (hx : s.worldMinX + PlayerHalfWidth ≤ s.worldMaxX - PlayerHalfWidth)
    (hy : s.worldMinY + PlayerHalfHeight ≤ s.worldMaxY - PlayerHalfHeight)
    (h : storeInBounds s) : storeInBounds (applyOp s op) := by
  cases op with
  | add id u x y now =>
      intro e he
      simp only [applyOp, addPlayer] at he
      rcases mem_setEntry he with rfl | hmem
      · exact ⟨clamp_mem hx, clamp_mem hy⟩
      · exact h e hmem
  | input id dir now =>
      intro e he
      have hw := applyOp_world s (Op.input id dir now)
      rw [inBoundsP_congr hw.1 hw.2.1 hw.2.2.1 hw.2.2.2]
      cases hlk : lookupEntry s.players id with
      | none =>
          simp only [applyOp, applyInput, hlk] at he
          exact h e he
      | some tp =>
          simp only [applyOp, applyInput, hlk] at he
          rcases mem_setEntry he with rfl | hmem
          · have htp := h (id, tp) (lookupEntry_some_mem hlk)
            rcases applyInputTracked_pos s id tp dir now with ⟨hpx, hpy⟩ | ⟨hpx, hpy⟩
            · unfold inBoundsP
              rw [hpx, hpy]
              exact htp
            · unfold inBoundsP
              rw [hpx, hpy]
              exact ⟨clamp_mem hx, clamp_mem hy⟩
          · exact h e hmem
  | remove id =>
      intro e he
      simp only [applyOp, removePlayer] at he
      exact h e (mem_eraseEntry he)
  | genDelta =>
      intro e he
      simp only [applyOp] at he ⊢
      rw [generateDeltaUpdate_players] at he
      have hf := generateDeltaUpdate_frame s
      rw [inBoundsP_congr hf.2.2.2.2.1 hf.2.2.2.2.2.1 hf.2.2.2.2.2.2.1 hf.2.2.2.2.2.2.2]
      exact h e he

/-- C1: starting from any store whose records are inside the world bounds
minus half extents (in particular the empty store `NewState` builds), and for
any nondegenerate world, every sequence of `AddPlayer`/`ApplyInput` calls (or
any other public store operation) leaves every player record's `x` within
`[worldMinX+halfWidth, worldMaxX-halfWidth]` and every `y` within
`[worldMinY+halfHeight, worldMaxY-halfHeight]`, so no player's bounding box
extends past the world edges. -/
theorem store_position_in_bounds (s : State) (ops : List Op)
    (hx : s.worldMinX + PlayerHalfWidth ≤ s.worldMaxX - PlayerHalfWidth)
    (hy : s.worldMinY + PlayerHalfHeight ≤ s.worldMaxY - PlayerHalfHeight)
    (h0 : storeInBounds s) : storeInBounds (runOps s ops) := by
  induction ops generalizing s with
  | nil => exact h0
  | cons op rest ih =>
      have hw := applyOp_world s op
      exact ih (applyOp s op)
        (by rw [hw.1, hw.2.1]; exact hx)
        (by rw [hw.2.2.1, hw.2.2.2]; exact hy)
        (storeInBounds_applyOp s op hx hy h0)

/-- Witness for C1 at a concrete 8×8 world and a concrete call sequence. -/
theorem store_position_in_bounds_witness :
    storeInBounds (runOps (mkState 8 8)
      [Op.add "p1" "u" 0 500 0, Op.input "p1" Direction.right 1,
       Op.input "p1" Direction.up 2]) :=
  store_position_in_bounds (mkState 8 8) _ (by decide) (by decide) (by decide)

-- --- C2: exact collision rejection ---

theorem applyInputPos_blocked {s : State} {pid : String} {tp : TrackedPlayer}
    {d : Direction} (hd : d ≠ Direction.unknown)
    (hb : blockedAt s pid (candidatePos s tp.playerData.xPos tp.playerData.yPos d) = true) :
    applyInputPos s pid tp d = (tp.playerData.xPos, tp.playerData.yPos, false) := by
  simp only [applyInputPos]
  rw [if_neg hd, if_pos hb]

theorem applyInputPos_free {s : State} {pid : String} {tp : TrackedPlayer}
    {d : Direction} (hd : d ≠ Direction.unknown)
    (hb : ¬ blockedAt s pid (candidatePos s tp.playerData.xPos tp.playerData.yPos d) = true) :
    applyInputPos s pid tp d =
      ((candidatePos s tp.playerData.xPos tp.playerData.yPos d).1,
       (candidatePos s tp.playerData.xPos tp.playerData.yPos d).2, true) := by
  simp only [applyInputPos]
  rw [if_neg hd, if_neg hb]

theorem checkMapCollision_congr {s s' : State} (h1 : s'.worldMap = s.worldMap)
    (h2 : s'.mapTileWidth = s.mapTileWidth) (h3 : s'.mapTileHeight = s.mapTileHeight)
    (h4 : s'.tileSize = s.tileSize) (cx cy : ℚ) :
    checkMapCollision s' cx cy = checkMapCollision s cx cy := by
  simp only [checkMapCollision, tileBlocked, tileAt, h1, h2, h3, h4]

/-- C2: for a found player and a non-None direction, if the clamped candidate
position (one speed step in the requested axis, clamped to the world bounds)
collides with a wall tile or with another live player's box, then the
player's x and y after `ApplyInput` equal their values before; and if the
player's current box was collision-free, the box after `ApplyInput` is also
collision-free, both against the tile map and against the other players. -/
theorem applyInput_collision_rejection (s : State) (pid : String) (d : Direction)
    (now : ℕ) (tp : TrackedPlayer)
    (hfind : lookupEntry s.players pid = some tp) (hd : d ≠ Direction.unknown) :
    (blockedAt s pid (candidatePos s tp.playerData.xPos tp.playerData.yPos d) = true →
      ∃ tp', lookupEntry (applyInput s pid d now).2.players pid = some tp' ∧
        tp'.playerData.xPos = tp.playerData.xPos ∧
        tp'.playerData.yPos = tp.playerData.yPos) ∧
    (checkMapCollision s tp.playerData.xPos tp.playerData.yPos = false →
     checkPlayerCollision s pid tp.playerData.xPos tp.playerData.yPos = false →
      ∀ tp', lookupEntry (applyInput s pid d now).2.players pid = some tp' →
        checkMapCollision (applyInput s pid d now).2 tp'.playerData.xPos
            tp'.playerData.yPos = false ∧
        checkPlayerCollision (applyInput s pid d now).2 pid tp'.playerData.xPos
            tp'.playerData.yPos = false) := by
  have hp : (applyInput s pid d now).2.players =
      setEntry s.players pid (applyInputTracked s pid tp d now) := by
    simp only [applyInput, hfind]
  have hlk2 : lookupEntry (applyInput s pid d now).2.players pid =
      some (applyInputTracked s pid tp d now) := by
    rw [hp]
    exact lookupEntry_setEntry_self _ _ _
  have hmapc : ∀ cx cy, checkMapCollision (applyInput s pid d now).2 cx cy =
      checkMapCollision s cx cy := by
    intro cx cy
    have hf := applyInput_frame s pid d now
    exact checkMapCollision_congr hf.1 hf.2.1 hf.2.2.1 hf.2.2.2.1 cx cy
  have hplc : ∀ cx cy, checkPlayerCollision (applyInput s pid d now).2 pid cx cy =
      checkPlayerCollision s pid cx cy := by
    intro cx cy
    unfold checkPlayerCollision
    rw [hp, playersCollide_setEntry]
  constructor
  · intro hb
    have hpos := applyInputPos_blocked hd hb
    refine ⟨applyInputTracked s pid tp d now, hlk2, ?_, ?_⟩
    · show (applyInputPos s pid tp d).1 = tp.playerData.xPos
      rw [hpos]
    · show (applyInputPos s pid tp d).2.1 = tp.playerData.yPos
      rw [hpos]
  · intro hmap hpl tp' htp'
    rw [hlk2] at htp'
    have htp'' := Option.some.inj htp'
    subst htp''
    by_cases hb : blockedAt s pid
      (candidatePos s tp.playerData.xPos tp.playerData.yPos d) = true
    · have hpos := applyInputPos_blocked hd hb
      have hx' : (applyInputTracked s pid tp d now).playerData.xPos =
          tp.playerData.xPos := by
        show (applyInputPos s pid tp d).1 = _
        rw [hpos]
      have hy' : (applyInputTracked s pid tp d now).playerData.yPos =
          tp.playerData.yPos := by
        show (applyInputPos s pid tp d).2.1 = _
        rw [hpos]
      rw [hx', hy', hmapc, hplc]
      exact ⟨hmap, hpl⟩
    · have hpos := applyInputPos_free hd hb
      have hx' : (applyInputTracked s pid tp d now).playerData.xPos =
          (candidatePos s tp.playerData.xPos tp.playerData.yPos d).1 := by
        show (applyInputPos s pid tp d).1 = _
        rw [hpos]
      have hy' : (applyInputTracked s pid tp d now).playerData.yPos =
          (candidatePos s tp.playerData.xPos tp.playerData.yPos d).2 := by
        show (applyInputPos s pid tp d).2.1 = _
        rw [hpos]
      have hb' : blockedAt s pid
          (candidatePos s tp.playerData.xPos tp.playerData.yPos d) = false := by
        cases hbool : blockedAt s pid
          (candidatePos s tp.playerData.xPos tp.playerData.yPos d) with
        | true => exact absurd hbool hb
        | false => rfl
      rw [blockedAt, Bool.or_eq_false_iff] at hb'
      rw [hx', hy', hmapc, hplc]
      exact hb'

/-- Witness for C2: in `wallP` the wall east of p1 blocks a Right step and
the position is unchanged. -/
theorem applyInput_collision_rejection_witness :
    blockedAt wallP "p1" (candidatePos wallP 128 100 Direction.right) = true ∧
    ∃ tp', lookupEntry (applyInput wallP "p1" Direction.right 1).2.players "p1" = some tp' ∧
      tp'.playerData.xPos = 128 ∧ tp'.playerData.yPos = 100 :=
  ⟨by decide,
   (applyInput_collision_rejection wallP "p1" Direction.right 1 wallTp
      (by decide) (by decide)).1 (by decide)⟩

-- --- C3: delta idempotence and snapshot discipline ---

theorem deltaChanged_false_iff (s : State) :
    deltaChanged s = false ↔ deltaUpdated s = [] ∧ deltaRemoved s = [] := by
  simp [deltaChanged, List.isEmpty_iff]

theorem deltaUpdated_eq_nil_of_sync (s : State) (hnd : storeKeysNodup s)
    (hsync : s.lastBroadcastPlayers = snapshotOf s.players) :
    deltaUpdated s = [] := by
  unfold deltaUpdated
  rw [List.filterMap_eq_nil_iff]
  intro e he
  rw [hsync, lookupEntry_snapshotOf, lookupEntry_self_of_mem_nodup hnd he]
  simp

theorem deltaRemoved_eq_nil_of_sub (s : State)
    (hsub : ∀ e ∈ s.lastBroadcastPlayers, (lookupEntry s.players e.1).isSome = true) :
    deltaRemoved s = [] := by
  unfold deltaRemoved
  rw [List.filterMap_eq_nil_iff]
  intro e he
  rw [if_pos (hsub e he)]

/-- C3 counterexample: one freshly added player, empty broadcast snapshot, two
`GenerateDelta` calls with no mutation between them — the first call returns
`changed=true`, so "both calls return changed=false" fails as stated. -/
theorem generateDelta_twice_cex :
    ¬ ((generateDeltaUpdate oneP).2.1 = false ∧
       (generateDeltaUpdate (generateDeltaUpdate oneP).2.2).2.1 = false) := by
  decide

/-- C3 (amended): the second of two `GenerateDelta` calls with no intervening
mutation returns `changed=false` with empty updated and removed lists (the
first call may legitimately report pending changes); whenever `GenerateDelta`
returns `changed=false` the state — in particular the broadcast snapshot — is
left unchanged; and on `changed=true` the snapshot is replaced wholesale with
the new full snapshot. -/
theorem generateDelta_second_call_stable (s : State) (hnd : storeKeysNodup s) :
    ((generateDeltaUpdate (generateDeltaUpdate s).2.2).2.1 = false ∧
     (generateDeltaUpdate (generateDeltaUpdate s).2.2).1.updatedPlayers = [] ∧
     (generateDeltaUpdate (generateDeltaUpdate s).2.2).1.removedPlayerIds = []) ∧
    ((generateDeltaUpdate s).2.1 = false → (generateDeltaUpdate s).2.2 = s) ∧
    ((generateDeltaUpdate s).2.1 = true →
      (generateDeltaUpdate s).2.2.lastBroadcastPlayers = snapshotOf s.players) := by
  have hkeep : ∀ _h : deltaChanged s = false, (generateDeltaUpdate s).2.2 = s :=
    fun h => by simp [generateDeltaUpdate, h]
  have hrepl : (generateDeltaUpdate s).2.1 = true →
      (generateDeltaUpdate s).2.2.lastBroadcastPlayers = snapshotOf s.players := by
    intro h
    have h' : deltaChanged s = true := h
    simp [generateDeltaUpdate, h']
  refine ⟨?_, fun h => hkeep h, hrepl⟩
  cases hc : deltaChanged s with
  | false =>
      rw [hkeep hc]
      have hni := (deltaChanged_false_iff s).1 hc
      exact ⟨hc, hni.1, hni.2⟩
  | true =>
      have hrep : (generateDeltaUpdate s).2.2 =
          { s with lastBroadcastPlayers := snapshotOf s.players } := by
        simp [generateDeltaUpdate, hc]
      have hpl : (generateDeltaUpdate s).2.2.players = s.players := by rw [hrep]
      have hlb : (generateDeltaUpdate s).2.2.lastBroadcastPlayers =
          snapshotOf s.players := by rw [hrep]
      have hnd₁ : storeKeysNodup (generateDeltaUpdate s).2.2 := by
        unfold storeKeysNodup
        rw [hpl]
        exact hnd
      have hu : deltaUpdated (generateDeltaUpdate s).2.2 = [] := by
        apply deltaUpdated_eq_nil_of_sync _ hnd₁
        rw [hlb, hpl]
      have hr : deltaRemoved (generateDeltaUpdate s).2.2 = [] := by
        apply deltaRemoved_eq_nil_of_sub
        intro e he
        rw [hlb] at he
        simp only [snapshotOf] at he
        obtain ⟨a, ha, rfl⟩ := List.mem_map.1 he
        rw [hpl, lookupEntry_self_of_mem_nodup hnd ha]
        rfl
      have hc₁ : deltaChanged (generateDeltaUpdate s).2.2 = false := by
        show (!(deltaUpdated (generateDeltaUpdate s).2.2).isEmpty ||
          !(deltaRemoved (generateDeltaUpdate s).2.2).isEmpty) = false
        rw [hu, hr]
        rfl
      exact ⟨hc₁, hu, hr⟩

/-- Witness for C3 (amended) at a concrete one-player state. -/
theorem generateDelta_second_call_stable_witness :
    (generateDeltaUpdate (generateDeltaUpdate oneP).2.2).2.1 = false ∧
    (generateDeltaUpdate (generateDeltaUpdate oneP).2.2).1.updatedPlayers = [] ∧
    (generateDeltaUpdate (generateDeltaUpdate oneP).2.2).1.removedPlayerIds = [] :=
  (generateDelta_second_call_stable oneP (by decide)).1

-- --- C4: delta membership tracking ---

theorem lookupEntry_applyOp_none {s : State} {p : String} (op : Op)
    (habs : lookupEntry s.players p = none) (hna : ¬ op.addsId p) :
    lookupEntry (applyOp s op).players p = none := by
  cases op with
  | add id u x y now =>
      simp only [applyOp, addPlayer]
      rw [lookupEntry_setEntry_ne _ _ _ _ hna]
      exact habs
  | input id dir now =>
      cases hlk : lookupEntry s.players id with
      | none =>
          simp only [applyOp, applyInput, hlk]
          exact habs
      | some tp =>
          simp only [applyOp, applyInput, hlk]
          have hne : id ≠ p := by
            intro h
            rw [h, habs] at hlk
            cases hlk
          rw [lookupEntry_setEntry_ne _ _ _ _ hne]
          exact habs
  | remove id =>
      simp only [applyOp, removePlayer]
      rw [lookupEntry_eq_none_iff] at habs ⊢
      intro e he
      exact habs e (mem_eraseEntry he)
  | genDelta =>
      simp only [applyOp]
      rw [generateDeltaUpdate_players]
      exact habs

theorem storeWF_applyOp (s : State) (op : Op) (h : storeWF s) :
    storeWF (applyOp s op) := by
  cases op with
  | add id u x y now =>
      intro e he
      simp only [applyOp, addPlayer] at he
      rcases mem_setEntry he with rfl | hm
      · rfl
      · exact h e hm
  | input id dir now =>
      cases hlk : lookupEntry s.players id with
      | none =>
          intro e he
          simp only [applyOp, applyInput, hlk] at he
          exact h e he
      | some tp =>
          intro e he
          simp only [applyOp, applyInput, hlk] at he
          rcases mem_setEntry he with rfl | hm
          · show (applyInputTracked s id tp dir now).playerData.id = id
            rw [show (applyInputTracked s id tp dir now).playerData.id =
              tp.playerData.id from rfl]
            exact h (id, tp) (lookupEntry_some_mem hlk)
          · exact h e hm
  | remove id =>
      intro e he
      simp only [applyOp, removePlayer] at he
      exact h e (mem_eraseEntry he)
  | genDelta =>
      intro e he
      simp only [applyOp] at he
      rw [generateDeltaUpdate_players] at he
      exact h e he

theorem lookupEntry_runOps_none (s : State) (p : String) (ops : List Op)
    (habs : lookupEntry s.players p = none) (hna : ∀ op ∈ ops, ¬ op.addsId p) :
    lookupEntry (runOps s ops).players p = none := by
  induction ops generalizing s with
  | nil => exact habs
  | cons op rest ih =>
      exact ih (applyOp s op)
        (lookupEntry_applyOp_none op habs (hna op (List.mem_cons_self _ _)))
        (fun o ho => hna o (List.mem_cons_of_mem _ ho))

theorem storeWF_runOps (s : State) (ops : List Op) (h : storeWF s) :
    storeWF (runOps s ops) := by
  induction ops generalizing s with
  | nil => exact h
  | cons op rest ih => exact ih _ (storeWF_applyOp s op h)

/-- C4 counterexample: add p1 and remove it again before any broadcast — the
broadcast snapshot never saw p1, so the next `GenerateDelta` does *not* list
p1 in its removed set, contradicting the claim as stated. -/
theorem delta_membership_cex :
    ¬ ("p1" ∈ (generateDeltaUpdate (removePlayer oneP "p1")).1.removedPlayerIds) := by
  decide

/-- C4 (amended): after `AddPlayer(p, ...)` the next `GenerateDelta` lists p in
its updated set **unless** the broadcast snapshot already holds p with a
record equal to the freshly created one; after `RemovePlayer(p)` the next
`GenerateDelta` lists p in its removed set **provided** p was in the broadcast
snapshot; and no `GenerateDelta` after the removal lists p in updated unless
an `AddPlayer` under id p is executed again. -/
theorem delta_membership_tracking (s : State) (p u : String) (x y : ℚ) (now : ℕ) :
    (lookupEntry s.lastBroadcastPlayers p ≠ some (addPlayer s p u x y now).1 →
      (addPlayer s p u x y now).1 ∈
        (generateDeltaUpdate (addPlayer s p u x y now).2).1.updatedPlayers) ∧
    (storeKeysNodup s → (lookupEntry s.lastBroadcastPlayers p).isSome = true →
      p ∈ (generateDeltaUpdate (removePlayer s p)).1.removedPlayerIds) ∧
    (∀ ops : List Op, (∀ op ∈ ops, ¬ op.addsId p) → storeKeysNodup s → storeWF s →
      ∀ r ∈ (generateDeltaUpdate (runOps (removePlayer s p) ops)).1.updatedPlayers,
        r.id ≠ p) := by
  refine ⟨?_, ?_, ?_⟩
  · intro hne
    show (addPlayer s p u x y now).1 ∈ deltaUpdated (addPlayer s p u x y now).2
    unfold deltaUpdated
    apply List.mem_filterMap.2
    refine ⟨(p, ⟨(addPlayer s p u x y now).1, now, Direction.unknown⟩),
      self_mem_setEntry _ _ _, ?_⟩
    show (match lookupEntry s.lastBroadcastPlayers p with
      | none => some (addPlayer s p u x y now).1
      | some lastP => if lastP = (addPlayer s p u x y now).1 then none
          else some (addPlayer s p u x y now).1) = some (addPlayer s p u x y now).1
    cases hlb : lookupEntry s.lastBroadcastPlayers p with
    | none => rfl
    | some q =>
        have hq : q ≠ (addPlayer s p u x y now).1 := by
          intro hq
          exact hne (by rw [hlb, hq])
        simp [hq]
  · intro hnd hsome
    show p ∈ deltaRemoved (removePlayer s p)
    unfold deltaRemoved
    apply List.mem_filterMap.2
    obtain ⟨rec, hrec⟩ := Option.isSome_iff_exists.1 hsome
    refine ⟨(p, rec), lookupEntry_some_mem hrec, ?_⟩
    have hgone : lookupEntry (removePlayer s p).players p = none := by
      show lookupEntry (eraseEntry s.players p) p = none
      exact lookupEntry_eraseEntry_self hnd
    show (if (lookupEntry (removePlayer s p).players p).isSome = true then none
      else some p) = some p
    simp [hgone]
  · intro ops hna hnd hwf r hr
    have habs : lookupEntry (removePlayer s p).players p = none := by
      show lookupEntry (eraseEntry s.players p) p = none
      exact lookupEntry_eraseEntry_self hnd
    have habs' := lookupEntry_runOps_none _ p ops habs hna
    have hwf' : storeWF (runOps (removePlayer s p) ops) := by
      apply storeWF_runOps
      intro e he
      exact hwf e (mem_eraseEntry he)
    obtain ⟨e, he, rfl⟩ := mem_updated_exists hr
    rw [hwf' e he]
    intro hep
    rw [lookupEntry_eq_none_iff] at habs'
    exact habs' e he hep

/-- Witness for C4 (amended) at concrete states: a fresh add is reported, a
removal of a broadcast player is reported, and after removal the player never
reappears in updated without a re-add. -/
theorem delta_membership_tracking_witness :
    ((addPlayer (mkState 8 8) "p1" "u" 100 100 0).1 ∈
      (generateDeltaUpdate (addPlayer (mkState 8 8) "p1" "u" 100 100 0).2).1.updatedPlayers) ∧
    ("p1" ∈ (generateDeltaUpdate (removePlayer onePSync "p1")).1.removedPlayerIds) ∧
    (∀ r ∈ (generateDeltaUpdate (runOps (removePlayer onePSync "p1")
        [Op.input "p1" Direction.up 3])).1.updatedPlayers, r.id ≠ "p1") :=
  ⟨(delta_membership_tracking (mkState 8 8) "p1" "u" 100 100 0).1 (by decide),
   (delta_membership_tracking onePSync "p1" "u" 100 100 0).2.1 (by decide) (by decide),
   (delta_membership_tracking onePSync "p1" "u" 100 100 0).2.2
     [Op.input "p1" Direction.up 3] (by decide) (by decide) (by decide)⟩

-- --- C5: full-state delta ---

/-- C5: `GetInitialStateDelta` returns every live player exactly once in its
updated list (counted by id, given unique keys and key/id agreement), an empty
removed list, and leaves the state — hence the broadcast snapshot and the
result of the next `GenerateDelta` — untouched. -/
theorem initial_state_delta_spec (s : State) (hnd : storeKeysNodup s)
    (hwf : storeWF s) :
    (getInitialStateDelta s).1.removedPlayerIds = [] ∧
    (∀ p : String, ((getInitialStateDelta s).1.updatedPlayers.map Player.id).count p =
        if (lookupEntry s.players p).isSome = true then 1 else 0) ∧
    generateDeltaUpdate (getInitialStateDelta s).2 = generateDeltaUpdate s := by
  refine ⟨rfl, ?_, rfl⟩
  intro p
  have hids : (getInitialStateDelta s).1.updatedPlayers.map Player.id =
      s.players.map Prod.fst := by
    show (s.players.map fun e => e.2.playerData).map Player.id = s.players.map Prod.fst
    rw [List.map_map]
    exact List.map_congr_left fun a ha => hwf a ha
  rw [hids]
  by_cases hp : p ∈ s.players.map Prod.fst
  · rw [if_pos (lookupEntry_isSome_iff.2 hp)]
    exact List.count_eq_one_of_mem hnd hp
  · rw [if_neg (fun hs => hp (lookupEntry_isSome_iff.1 hs))]
    exact List.count_eq_zero_of_not_mem hp

/-- Witness for C5 at a concrete two-player state. -/
theorem initial_state_delta_spec_witness :
    (getInitialStateDelta twoP).1.removedPlayerIds = [] ∧
    (∀ p : String, ((getInitialStateDelta twoP).1.updatedPlayers.map Player.id).count p =
        if (lookupEntry twoP.players p).isSome = true then 1 else 0) ∧
    generateDeltaUpdate (getInitialStateDelta twoP).2 = generateDeltaUpdate twoP :=
  initial_state_delta_spec twoP (by decide) (by decide)

-- --- C6: unconditional intent recording ---

/-- C6: for every found player and every direction, `ApplyInput` writes
`lastInputTime = now` and `lastDirection = direction` unconditionally (even
when movement is blocked), and the stored animation state is the attempted
direction's running pose — Idle exactly when the direction is UNKNOWN. -/
theorem applyInput_records_intent (s : State) (pid : String) (d : Direction)
    (now : ℕ) (tp : TrackedPlayer)
    (hfind : lookupEntry s.players pid = some tp) :
    ∃ tp', lookupEntry (applyInput s pid d now).2.players pid = some tp' ∧
      tp'.lastInputTime = now ∧ tp'.lastDirection = d ∧
      tp'.playerData.currentAnimationState = animForDirection d ∧
      (d = Direction.unknown →
        tp'.playerData.currentAnimationState = AnimationState.idle) := by
  have hp : (applyInput s pid d now).2.players =
      setEntry s.players pid (applyInputTracked s pid tp d now) := by
    simp only [applyInput, hfind]
  refine ⟨applyInputTracked s pid tp d now,
    by rw [hp]; exact lookupEntry_setEntry_self _ _ _, rfl, rfl, ?_, ?_⟩
  · show (if (applyInputPos s pid tp d).2.2 || decide (d ≠ Direction.unknown) then
        animForDirection d else AnimationState.idle) = animForDirection d
    by_cases hd : d = Direction.unknown
    · subst hd
      rw [show applyInputPos s pid tp Direction.unknown =
        (tp.playerData.xPos, tp.playerData.yPos, false) from rfl]
      simp [animForDirection]
    · simp [hd]
  · intro hd
    subst hd
    show (if (applyInputPos s pid tp Direction.unknown).2.2 ||
        decide (Direction.unknown ≠ Direction.unknown) then
        animForDirection Direction.unknown else AnimationState.idle) =
      AnimationState.idle
    rw [show applyInputPos s pid tp Direction.unknown =
      (tp.playerData.xPos, tp.playerData.yPos, false) from rfl]
    simp

/-- Witness for C6: a blocked Right step still records time, direction and the
running-right pose. -/
theorem applyInput_records_intent_witness :
    ∃ tp', lookupEntry (applyInput wallP "p1" Direction.right 7).2.players "p1" =
        some tp' ∧
      tp'.lastInputTime = 7 ∧ tp'.lastDirection = Direction.right ∧
      tp'.playerData.currentAnimationState = animForDirection Direction.right ∧
      (Direction.right = Direction.unknown →
        tp'.playerData.currentAnimationState = AnimationState.idle) :=
  applyInput_records_intent wallP "p1" Direction.right 7 wallTp (by decide)

-- --- C7: the wall test's tile range ---

/-- C7 counterexample: on a 10×10 all-Empty map, a box centred at (54, 160)
reaches 10px past the west world edge.  The claim's floor-based range
(`floor(-10/32) = -1`) reports a hit on the out-of-bounds column −1, but the
code's `int()` conversion truncates toward zero (`int(-10/32) = 0`), so
`checkMapCollision` scans columns 0..3 only and returns false: the claimed
iff is false at this input. -/
theorem checkMapCollision_floor_cex :
    ¬ (checkMapCollision (mkState 10 10) 54 160 = true ↔
       specFloorWallHit (mkState 10 10) 54 160) := by
  intro h
  have hs : specFloorWallHit (mkState 10 10) 54 160 := by
    refine ⟨-1, 3, ?_, ?_, ?_, ?_, Or.inl (by norm_num)⟩
    · have h1 := Int.floor_lt.2
        (show ((54:ℚ) - PlayerHalfWidth) / (((mkState 10 10).tileSize : ℤ) : ℚ) <
          ((0:ℤ) : ℚ) by norm_num [mkState, PlayerHalfWidth, DefaultTileSize])
      omega
    · exact Int.le_floor.2
        (by norm_num [mkState, PlayerHalfWidth, DefaultTileSize])
    · have h3 := Int.floor_lt.2
        (show ((160:ℚ) - PlayerHalfHeight) / (((mkState 10 10).tileSize : ℤ) : ℚ) <
          ((4:ℤ) : ℚ) by norm_num [mkState, PlayerHalfHeight, DefaultTileSize])
      omega
    · exact Int.le_floor.2
        (by norm_num [mkState, PlayerHalfHeight, DefaultTileSize])
  have hc : checkMapCollision (mkState 10 10) 54 160 = false := by decide
  rw [h.2 hs] at hc
  cases hc

/-- C7 (amended): `checkMapCollision` returns true iff some tile index in the
range from `trunc(minEdge/tileSize)` to `trunc((maxEdge-epsilon)/tileSize)` on
each axis — Go's `int()` conversion truncates toward zero, it does not floor —
is outside `[0,width)×[0,height)` or holds a Wall tile.  (Consequently boxes
sticking out past the east/south edges, or at least one full tile past the
west/north edges, are collisions; an overhang of less than one tile past the
west/north edge is not scanned.) -/
theorem checkMapCollision_trunc_range_iff (s : State) (cx cy : ℚ) :
    checkMapCollision s cx cy = true ↔
      ∃ tx ty : ℤ,
        truncQ ((cx - PlayerHalfWidth) / (s.tileSize : ℚ)) ≤ tx ∧
        tx ≤ truncQ ((cx + PlayerHalfWidth - 1 / 1000) / (s.tileSize : ℚ)) ∧
        truncQ ((cy - PlayerHalfHeight) / (s.tileSize : ℚ)) ≤ ty ∧
        ty ≤ truncQ ((cy + PlayerHalfHeight - 1 / 1000) / (s.tileSize : ℚ)) ∧
        (tx < 0 ∨ s.mapTileWidth ≤ tx ∨ ty < 0 ∨ s.mapTileHeight ≤ ty ∨
          tileAt s tx ty = TileType.wall) := by
  simp only [checkMapCollision, List.any_eq_true]
  constructor
  · rintro ⟨ty, hty, tx, htx, hb⟩
    rw [mem_rangeList] at hty htx
    rw [tileBlocked_iff] at hb
    exact ⟨tx, ty, htx.1, htx.2, hty.1, hty.2, hb⟩
  · rintro ⟨tx, ty, h₁, h₂, h₃, h₄, hb⟩
    exact ⟨ty, mem_rangeList.2 ⟨h₃, h₄⟩, tx, mem_rangeList.2 ⟨h₁, h₂⟩,
      tileBlocked_iff.2 hb⟩

-- --- C8: unknown-id error paths are no-ops ---

/-- C8: for an id not in the store, `ApplyInput` returns `(nil, false)`,
`UpdatePlayerDirection` returns `changed=false`, and `RemovePlayer` is a
no-op; in each case the state is exactly what it was before the call. -/
theorem unknown_id_noop (s : State) (pid : String) (d : Direction) (now : ℕ)
    (h : lookupEntry s.players pid = none) :
    applyInput s pid d now = (none, s) ∧
    updatePlayerDirection s pid d = (false, s) ∧
    removePlayer s pid = s := by
  refine ⟨by simp [applyInput, h], by simp [updatePlayerDirection, h], ?_⟩
  show { s with players := eraseEntry s.players pid } = s
  rw [eraseEntry_of_lookup_none h]

/-- Witness for C8 on a store that has never seen the id. -/
theorem unknown_id_noop_witness :
    applyInput (mkState 8 8) "ghost" Direction.up 5 = (none, mkState 8 8) ∧
    updatePlayerDirection (mkState 8 8) "ghost" Direction.up = (false, mkState 8 8) ∧
    removePlayer (mkState 8 8) "ghost" = mkState 8 8 :=
  unknown_id_noop (mkState 8 8) "ghost" Direction.up 5 (by decide)

-- --- C9: direction None leaves the position untouched ---

/-- C9: `ApplyInput` with direction UNKNOWN (None) leaves the player's x and y
exactly as they were — no movement, clamping or collision outcome is applied —
and only `lastInputTime`, `lastDirection` and the animation state (set to
Idle) change in the stored record. -/
theorem applyInput_idle_keeps_position (s : State) (pid : String) (now : ℕ)
    (tp : TrackedPlayer) (hfind : lookupEntry s.players pid = some tp) :
    applyInput s pid Direction.unknown now =
      (some { tp.playerData with currentAnimationState := AnimationState.idle },
       { s with players := (setEntry s.players pid
           { playerData :=
               { tp.playerData with currentAnimationState := AnimationState.idle },
             lastInputTime := now, lastDirection := Direction.unknown }) }) := by
  have htr : applyInputTracked s pid tp Direction.unknown now =
      { playerData :=
          { tp.playerData with currentAnimationState := AnimationState.idle },
        lastInputTime := now, lastDirection := Direction.unknown } := rfl
  simp only [applyInput, hfind, htr]

/-- Witness for C9 at a concrete one-player state. -/
theorem applyInput_idle_keeps_position_witness :
    applyInput oneP "p1" Direction.unknown 9 =
      (some ⟨"p1", "u", 100, 100, AnimationState.idle⟩,
       { oneP with players := (setEntry oneP.players "p1"
           ⟨⟨"p1", "u", 100, 100, AnimationState.idle⟩, 9, Direction.unknown⟩) }) :=
  applyInput_idle_keeps_position oneP "p1" 9
    ⟨⟨"p1", "u", 100, 100, AnimationState.idle⟩, 0, Direction.unknown⟩ (by decide)

-- --- C10: strict overlap test ---

/-- C10: `checkPlayerCollision` reports a collision iff some *other* live
player's box strictly overlaps the candidate box on both axes (the candidate's
own entry is skipped); all four edge comparisons are strict, so boxes that
touch exactly edge-to-edge (other player's min edge equal to the candidate's
max edge) are not reported as overlapping. -/
theorem playerCollision_strict_iff (s : State) (pid : String) (x y : ℚ) :
    (checkPlayerCollision s pid x y = true ↔
      ∃ e ∈ s.players, e.1 ≠ pid ∧
        x - PlayerHalfWidth < e.2.playerData.xPos + PlayerHalfWidth ∧
        e.2.playerData.xPos - PlayerHalfWidth < x + PlayerHalfWidth ∧
        y - PlayerHalfHeight < e.2.playerData.yPos + PlayerHalfHeight ∧
        e.2.playerData.yPos - PlayerHalfHeight < y + PlayerHalfHeight) ∧
    (∀ oy : ℚ, boxOverlapB x y (x + 2 * PlayerHalfWidth) oy = false) := by
  constructor
  · exact playersCollide_iff
  · intro oy
    have h : ¬ (x + PlayerHalfWidth > x + 2 * PlayerHalfWidth - PlayerHalfWidth) := by
      simp only [PlayerHalfWidth]
      intro hc
      linarith
    simp only [boxOverlapB]
    rw [decide_eq_false h]
    simp

/-- Witness for C10: in `twoP`, p1's box moved to x=172 touches p2's box
exactly edge-to-edge and no collision is reported. -/
theorem playerCollision_strict_iff_witness :
    checkPlayerCollision twoP "p1" 172 100 = false ∧
    boxOverlapB 172 100 (172 + 2 * PlayerHalfWidth) 100 = false :=
  ⟨by decide, (playerCollision_strict_iff twoP "p1" 172 100).2 100⟩

end Game
